import Mathlib

/-
Verification of the Spenders expense tracker's persistence and aggregation
core. JavaScript numbers are modelled as rationals, instants as integer
milliseconds since the Unix epoch, and the local time zone as a fixed
offset `off` (milliseconds added to UTC to obtain local time; no DST).
JS `Date` calendar arithmetic is modelled with the proleptic Gregorian
calendar, as specified by ECMA-262.
-/

/-- A civil calendar date (year, month 1..12, day 1..31). -/
structure CivilDate where
  year : Int
  month : Int
  day : Int
deriving DecidableEq

/-- Convert a day number (days since 1970-01-01) to its Gregorian civil date.
Layered era / century / quadrennium / year decomposition of the 400-year
cycle (146097 days), starting years in March so leap days come last. -/
def civilFromDays (z : Int) : CivilDate :=
  let zs := z + 719468
  let era := zs / 146097
  let doe := zs % 146097
  let c := if doe = 146096 then 3 else doe / 36524
  let doc := doe - 36524 * c
  let q := doc / 1461
  let doq := doc % 1461
  let yr := if doq = 1460 then 3 else doq / 365
  let doy := doq - 365 * yr
  let yoe := 100 * c + 4 * q + yr
  let mp := (5 * doy + 2) / 153
  let d := doy - (153 * mp + 2) / 5 + 1
  if mp < 10 then ⟨yoe + era * 400, mp + 3, d⟩ else ⟨yoe + era * 400 + 1, mp - 9, d⟩

/-- Day count (relative to 0000-03-01) of the first day of March-based year
`a`; the divisions count the leap days. -/
def yearStartDays (a : Int) : Int := 365 * a + a / 4 - a / 100 + a / 400

/-- First day-of-year (within a March-based year) of March-based month
`i ∈ [0, 11]` (i = 0 is March, i = 11 is February). -/
def monthOfsDays (i : Int) : Int := (153 * i + 2) / 5

/-- Day number (days since 1970-01-01) of a Gregorian civil date. Month
values outside 1..12 denormalize as in ECMA-262 (month 13 is January of the
following year, month 0 is December of the preceding year). -/
def daysFromCivil (year month day : Int) : Int :=
  yearStartDays (if month ≤ 2 then year - 1 else year) +
    monthOfsDays ((month + 9) % 12) + day - 1 - 719468

/-- Milliseconds in one day. -/
def dayMs : Int := 86400000

/-- Local day number of instant `t` under fixed zone offset `off`. -/
def localDay (off t : Int) : Int := (t + off) / dayMs

/-- Milliseconds elapsed since local midnight at instant `t`. -/
def msInDay (off t : Int) : Int := (t + off) % dayMs

/-- The civil date of instant `t` in the local zone. -/
def civilOf (off t : Int) : CivilDate := civilFromDays (localDay off t)

/-- JS `d.setHours(0, 0, 0, 0)`: local midnight of the day containing `t`. -/
def jsSetHours0 (off t : Int) : Int := localDay off t * dayMs - off

/-- JS `d.setHours(23, 59, 59, 999)`: last millisecond of the local day. -/
def jsSetHours23 (off t : Int) : Int := localDay off t * dayMs + (dayMs - 1) - off

/-- JS `d.getDay()`: local day of week, 0 = Sunday (1970-01-01 was a
Thursday, day index 4). -/
def jsGetDay (off t : Int) : Int := (localDay off t + 4) % 7

/-- JS `d.getDate()`: local day of month. -/
def jsGetDate (off t : Int) : Int := (civilOf off t).day

/-- JS `d.setDate(n)`: set the day of month to `n`, keeping the time of day;
out-of-range `n` rolls over into adjacent months (day `n` of a month is its
first day plus `n - 1` days). -/
def jsSetDate (off t n : Int) : Int :=
  (daysFromCivil (civilOf off t).year (civilOf off t).month 1 + (n - 1)) * dayMs +
    msInDay off t - off

/-- JS `d.setMonth(d.getMonth() + 1)`: move to the next month keeping the
day of month and time of day; a day of month beyond the target month's
length rolls over into the month after (ECMA-262 MakeDay semantics). -/
def jsSetMonthNext (off t : Int) : Int :=
  (daysFromCivil (civilOf off t).year ((civilOf off t).month + 1) 1 +
    ((civilOf off t).day - 1)) * dayMs + msInDay off t - off

/-- date-utils `getStartOfDay`: `start.setHours(0,0,0,0)`. -/
def getStartOfDay (off t : Int) : Int := jsSetHours0 off t

/-- date-utils `getEndOfDay`: `end.setHours(23,59,59,999)`. -/
def getEndOfDay (off t : Int) : Int := jsSetHours23 off t

/-- date-utils `getStartOfWeek`: `start.setDate(start.getDate() - start.getDay());
start.setHours(0,0,0,0)`. -/
def getStartOfWeek (off t : Int) : Int :=
  jsSetHours0 off (jsSetDate off t (jsGetDate off t - jsGetDay off t))

/-- date-utils `getEndOfWeek`: `end.setDate(end.getDate() + (6 - end.getDay()));
end.setHours(23,59,59,999)`. -/
def getEndOfWeek (off t : Int) : Int :=
  jsSetHours23 off (jsSetDate off t (jsGetDate off t + (6 - jsGetDay off t)))

/-- date-utils `getStartOfMonth`: `start.setDate(1); start.setHours(0,0,0,0)`. -/
def getStartOfMonth (off t : Int) : Int := jsSetHours0 off (jsSetDate off t 1)

/-- date-utils `getEndOfMonth`: `end.setMonth(end.getMonth() + 1);
end.setDate(0); end.setHours(23,59,59,999)`. -/
def getEndOfMonth (off t : Int) : Int :=
  jsSetHours23 off (jsSetDate off (jsSetMonthNext off t) 0)

/-- format-utils `calculatePercentageChange`: 0 when both are 0, 100 when
only the old value is 0, otherwise signed relative change in percent. -/
def calculatePercentageChange (oldValue newValue : ℚ) : ℚ :=
  if oldValue = 0 then (if newValue = 0 then 0 else 100)
  else (newValue - oldValue) / |oldValue| * 100

/-- budget model `getBudgetStatus`: classify a percentage of budget. -/
def getBudgetStatus (percentage : ℚ) : String :=
  if percentage ≥ 100 then "over"
  else if percentage ≥ 80 then "near"
  else "under"

/-- budget-goals `loadBudgetGoals`: percentage of a goal consumed by the
current spending, `goal.amount > 0 ? (currentAmount / goal.amount) * 100 : 0`. -/
def budgetPercentage (currentAmount goalAmount : ℚ) : ℚ :=
  if goalAmount > 0 then currentAmount / goalAmount * 100 else 0

/-- An expense record of the `expenses` store. -/
structure Expense where
  id : String
  amount : ℚ
  timestamp : Int
  category : String
  note : Option String
deriving DecidableEq

/-- Where a failing IndexedDB read operation fails: opening the connection
(the awaited `openDB()` rejects), or the read request itself erroring inside
the transaction (`request.onerror` fires). `none` is the success mode. -/
inductive ReadFailure where
  | connection
  | request
deriving DecidableEq

/-- db `getExpenses`, with its store contents and failure mode explicit.
The `try`/`catch` around the body only catches the awaited `openDB()`
rejection (and synchronous throws), resolving `[]`; the promise built inside
the `try` is returned without `await`, so when `request.onerror` later
rejects it, that rejection bypasses the `catch` and propagates. -/
def getExpensesOp (db : List Expense) : Option ReadFailure → Except ReadFailure (List Expense)
  | none => .ok db
  | some .connection => .ok []
  | some .request => .error .request

/-- db `getSetting`, with the settings store as an association list. On
success resolves the stored value, or the caller-supplied default when the
key is absent; a connection failure is caught and resolves the default; a
request failure inside the transaction rejects outward (same
return-without-await structure as `getExpensesOp`). -/
def getSettingOp {α : Type} (settings : List (String × α)) (name : String)
    (defaultValue : α) : Option ReadFailure → Except ReadFailure α
  | none => .ok (((settings.find? fun p => p.1 == name).map fun p => p.2).getD defaultValue)
  | some .connection => .ok defaultValue
  | some .request => .error .request

/-- db `getExpensesByPeriod`, success path: query the `timestamp` index with
`IDBKeyRange.bound(startTime, endTime)`, a range inclusive at both ends.
The store is modelled as the list of its records. -/
def getExpensesByPeriod (db : List Expense) (startTime endTime : Int) : List Expense :=
  db.filter fun e => decide (startTime ≤ e.timestamp) && decide (e.timestamp ≤ endTime)

/-- IndexedDB `store.add`: insert-only; errors on an existing primary key. -/
def addToStore (store : List Expense) (e : Expense) : Option (List Expense) :=
  if store.any fun x => x.id == e.id then none else some (store ++ [e])

/-- Run the `expenses.forEach((expense) => store.add(expense))` loop of
`saveExpenses` over an (already cleared) store; the first duplicate-key add
fails the transaction. -/
def runAdds : List Expense → List Expense → Option (List Expense)
  | acc, [] => some acc
  | acc, e :: rest =>
    match addToStore acc e with
    | none => none
    | some acc2 => runAdds acc2 rest

/-- db `saveExpenses` (the repository's replace-all): clear the store, then
add every given record, all in one readwrite transaction. On success the
promise resolves and the store holds exactly the new records; a failed add
aborts the transaction, which rolls the store back to its previous contents,
and the promise rejects (`false`). -/
def saveExpenses (store expenses : List Expense) : List Expense × Bool :=
  match runAdds [] expenses with
  | some cleared => (cleared, true)
  | none => (store, false)

/-- Budget period enum of the budget model. -/
inductive BudgetPeriod where
  | daily
  | weekly
  | monthly
deriving DecidableEq

/-- A budget goal record. `createdAt`/`updatedAt` are `Option Int` so that a
record arriving at the repository without them (the TS code receives `any`)
is representable; `some 0` is a present field holding 0. -/
structure BudgetGoal where
  id : String
  category : String
  amount : ℚ
  period : BudgetPeriod
  createdAt : Option Int
  updatedAt : Option Int
deriving DecidableEq

/-- JS truthiness of the optional numeric field `goal.createdAt`: an absent
field and the number 0 are falsy. -/
def jsTruthyTimestamp : Option Int → Bool
  | none => false
  | some v => v != 0

/-- The field writes `saveBudgetGoal` performs on its argument before
`store.put(goal)`: `if (!goal.createdAt) goal.createdAt = Date.now();
goal.updatedAt = Date.now()`, with `now` the current clock reading. -/
def saveBudgetGoalRecord (g : BudgetGoal) (now : Int) : BudgetGoal :=
  let g1 := if jsTruthyTimestamp g.createdAt then g else { g with createdAt := some now }
  { g1 with updatedAt := some now }

/-- IndexedDB `store.put`: insert-or-replace by primary key `id`. -/
def putByKey (store : List BudgetGoal) (g : BudgetGoal) : List BudgetGoal :=
  if store.any fun x => x.id == g.id then
    store.map fun x => if x.id == g.id then g else x
  else store ++ [g]

/-- Outcome of one `saveBudgetGoal` call: the value of the caller's goal
object after the call (the repository writes the timestamps onto it in
place) and the new store contents. -/
structure SaveOutcome where
  callerGoal : BudgetGoal
  store : List BudgetGoal
deriving DecidableEq

/-- db `saveBudgetGoal`: mutate the argument's timestamp fields in place,
then `store.put` that same object, so the stored record and the caller's
record are one and the same. -/
def saveBudgetGoalRun (store : List BudgetGoal) (g : BudgetGoal) (now : Int) : SaveOutcome :=
  let g2 := saveBudgetGoalRecord g now
  { callerGoal := g2, store := putByKey store g2 }

/-- One point of the chart's day series: the day key (the calendar day
number standing for the ISO `YYYY-MM-DD` string, which compares
lexicographically in day order) and the summed amount. -/
structure DayBucket where
  date : Int
  amount : ℚ
deriving DecidableEq

/-- Calendar day key of a timestamp, as `toISOString().split("T")[0]`
produces it. The chart module is modelled in a zone of offset 0, where the
ISO (UTC) day and the local day coincide. -/
def chartDayKey (t : Int) : Int := t / dayMs

/-- Day keys produced by the chart's seeding loop
`for (day = start; day <= end; day.setDate(day.getDate() + 1))`:
one key per executed iteration. -/
def dayKeys (startDate endDate : Int) : List Int :=
  List.map (fun k : Nat => startDate / dayMs + (k : Int))
    (List.range ((endDate - startDate) / dayMs + 1).toNat)

/-- One step of the chart's expense pass: if the expense's day key has a
bucket, add the amount to it (`dateMap.set` on an existing key); an expense
whose day is outside the seeded window is dropped. -/
def addExpenseToBuckets (buckets : List DayBucket) (e : Expense) : List DayBucket :=
  buckets.map fun b =>
    if b.date = chartDayKey e.timestamp then ⟨b.date, b.amount + e.amount⟩ else b

/-- expense-chart `groupExpensesByDay`: seed one zero bucket per loop day,
then fold the expenses in. The JS `Map` iterates in insertion order
(ascending days), so the trailing sort by date string is the identity and
is omitted; the display-only `formattedDate` field is not modelled. -/
def groupExpensesByDay (expenses : List Expense) (startDate endDate : Int) : List DayBucket :=
  expenses.foldl addExpenseToBuckets ((dayKeys startDate endDate).map fun u => ⟨u, 0⟩)

/-- Sum of the amounts of a list of expenses, as the
`reduce((sum, e) => sum + e.amount, 0)` idiom computes it. -/
def sumAmounts (expenses : List Expense) : ℚ := (expenses.map fun e => e.amount).sum

/-- The daily / weekly / monthly totals calculated by `calculateTotals`. -/
structure PeriodTotals where
  daily : ℚ
  weekly : ℚ
  monthly : ℚ
deriving DecidableEq

/-- page `calculateTotals`: filter the expense list by each period window
(timestamps compared inclusively at both bounds) and sum the amounts. -/
def calculateTotals (expenses : List Expense) (off now : Int) : PeriodTotals :=
  { daily := sumAmounts (expenses.filter fun e =>
      decide (getStartOfDay off now ≤ e.timestamp) && decide (e.timestamp ≤ getEndOfDay off now))
    weekly := sumAmounts (expenses.filter fun e =>
      decide (getStartOfWeek off now ≤ e.timestamp) && decide (e.timestamp ≤ getEndOfWeek off now))
    monthly := sumAmounts (expenses.filter fun e =>
      decide (getStartOfMonth off now ≤ e.timestamp) && decide (e.timestamp ≤ getEndOfMonth off now)) }

/-- Sanity anchors for the calendar model against known dates. -/
theorem calendar_anchor_epoch :
    civilFromDays 0 = ⟨1970, 1, 1⟩ ∧ daysFromCivil 1970 1 1 = 0 ∧
      civilFromDays 19723 = ⟨2024, 1, 1⟩ ∧ civilFromDays 19782 = ⟨2024, 2, 29⟩ ∧
      civilFromDays (-1) = ⟨1969, 12, 31⟩ ∧ daysFromCivil 2000 3 1 = 11017 := by
  refine ⟨by decide, by decide, by decide, by decide, by decide, by decide⟩

theorem civilFromDays_spec (z y m d : Int) (h : civilFromDays z = ⟨y, m, d⟩) :
    daysFromCivil y m d = z ∧ 1 ≤ m ∧ m ≤ 12 ∧ 1 ≤ d ∧ d ≤ 31 ∧
      z < daysFromCivil y (m + 1) 1 := by
  simp only [civilFromDays] at h
  have e3 : 146097 * ((z + 719468) / 146097) + (z + 719468) % 146097 = z + 719468 :=
    Int.ediv_add_emod _ _
  have e1 : 0 ≤ (z + 719468) % 146097 := Int.emod_nonneg _ (by norm_num)
  have e2 : (z + 719468) % 146097 < 146097 := Int.emod_lt_of_pos _ (by norm_num)
  generalize hera : (z + 719468) / 146097 = era at e3 h
  generalize hdoe : (z + 719468) % 146097 = doe at e1 e2 e3 h
  have hcex : ∃ c : Int, (if doe = 146096 then (3 : Int) else doe / 36524) = c ∧
      0 ≤ c ∧ c ≤ 3 ∧ 36524 * c ≤ doe ∧ doe - 36524 * c ≤ 36524 ∧
      (doe - 36524 * c = 36524 → c = 3) := by
    split_ifs with hcase
    · exact ⟨3, rfl, by norm_num, by norm_num, by omega, by omega, by omega⟩
    · exact ⟨doe / 36524, rfl, by omega, by omega, by omega, by omega, by omega⟩
  obtain ⟨c, hc1, hc2, hc3, hc4, hc5, hc6⟩ := hcex
  rw [hc1] at h
  clear hc1
  generalize hdoc : doe - 36524 * c = doc at h hc5 hc6
  have f3 : 1461 * (doc / 1461) + doc % 1461 = doc := Int.ediv_add_emod _ _
  have f1 : 0 ≤ doc % 1461 := Int.emod_nonneg _ (by norm_num)
  have f2 : doc % 1461 < 1461 := Int.emod_lt_of_pos _ (by norm_num)
  have f4 : 0 ≤ doc / 1461 := by omega
  have f5 : doc / 1461 ≤ 24 := by omega
  generalize hq : doc / 1461 = q at f3 f4 f5 h
  generalize hdoq : doc % 1461 = doq at f1 f2 f3 h
  have hyex : ∃ yr : Int, (if doq = 1460 then (3 : Int) else doq / 365) = yr ∧
      0 ≤ yr ∧ yr ≤ 3 ∧ 365 * yr ≤ doq ∧ doq - 365 * yr ≤ 365 ∧
      (doq - 365 * yr = 365 → doq = 1460) := by
    split_ifs with hcase
    · exact ⟨3, rfl, by norm_num, by norm_num, by omega, by omega, by omega⟩
    · exact ⟨doq / 365, rfl, by omega, by omega, by omega, by omega, by omega⟩
  obtain ⟨yr, hy1, hy2, hy3, hy4, hy5, hy6⟩ := hyex
  rw [hy1] at h
  clear hy1
  generalize hdoy : doq - 365 * yr = doy at h hy5 hy6
  have g3 : 153 * ((5 * doy + 2) / 153) + (5 * doy + 2) % 153 = 5 * doy + 2 :=
    Int.ediv_add_emod _ _
  have g1 : 0 ≤ (5 * doy + 2) % 153 := Int.emod_nonneg _ (by norm_num)
  have g2 : (5 * doy + 2) % 153 < 153 := Int.emod_lt_of_pos _ (by norm_num)
  generalize hmp : (5 * doy + 2) / 153 = mp at g3 h
  generalize hr1 : (5 * doy + 2) % 153 = r1 at g1 g2 g3
  have k3 : 5 * ((153 * mp + 2) / 5) + (153 * mp + 2) % 5 = 153 * mp + 2 :=
    Int.ediv_add_emod _ _
  have k1 : 0 ≤ (153 * mp + 2) % 5 := Int.emod_nonneg _ (by norm_num)
  have k2 : (153 * mp + 2) % 5 < 5 := Int.emod_lt_of_pos _ (by norm_num)
  generalize hms : (153 * mp + 2) / 5 = ms at k3 h
  generalize hr2 : (153 * mp + 2) % 5 = r2 at k1 k2 k3
  have hyoe0 : 0 ≤ 100 * c + 4 * q + yr := by omega
  have hyoe1 : 100 * c + 4 * q + yr ≤ 399 := by omega
  have hmp0 : 0 ≤ mp := by omega
  have hmp1 : mp ≤ 11 := by omega
  split_ifs at h with hmp10
  · -- March..December branch: month = mp + 3
    injection h with h1 h2 h3
    subst h1; subst h2; subst h3
    have hA : (100 * c + 4 * q + yr + era * 400) / 4 = 25 * c + q + era * 100 := by omega
    have hB : (100 * c + 4 * q + yr + era * 400) / 100 = c + era * 4 := by omega
    have hC : (100 * c + 4 * q + yr + era * 400) / 400 = era := by omega
    refine ⟨?_, by omega, by omega, by omega, by omega, ?_⟩
    · simp only [daysFromCivil, yearStartDays, monthOfsDays]
      rw [if_neg (by omega : ¬(mp + 3 ≤ 2)), hA, hB, hC,
        (by omega : (mp + 3 + 9) % 12 = mp), hms]
      omega
    · simp only [daysFromCivil, yearStartDays, monthOfsDays]
      rw [if_neg (by omega : ¬(mp + 3 + 1 ≤ 2)), hA, hB, hC,
        (by omega : (mp + 3 + 1 + 9) % 12 = mp + 1)]
      omega
  · -- January/February branch: month = mp - 9
    injection h with h1 h2 h3
    subst h1; subst h2; subst h3
    have hA : (100 * c + 4 * q + yr + era * 400 + 1 - 1) / 4 = 25 * c + q + era * 100 := by
      omega
    have hB : (100 * c + 4 * q + yr + era * 400 + 1 - 1) / 100 = c + era * 4 := by omega
    have hC : (100 * c + 4 * q + yr + era * 400 + 1 - 1) / 400 = era := by omega
    refine ⟨?_, by omega, by omega, by omega, by omega, ?_⟩
    · simp only [daysFromCivil, yearStartDays, monthOfsDays]
      rw [if_pos (by omega : mp - 9 ≤ 2), hA, hB, hC,
        (by omega : (mp - 9 + 9) % 12 = mp), hms]
      omega
    · simp only [daysFromCivil, yearStartDays, monthOfsDays]
      by_cases hfeb : mp - 9 + 1 ≤ 2
      · rw [if_pos hfeb, hA, hB, hC,
          (by omega : (mp - 9 + 1 + 9) % 12 = mp + 1)]
        omega
      · -- month + 1 = 3: rolls into March of the next civil year
        rw [if_neg hfeb, (by omega : (mp - 9 + 1 + 9) % 12 = 0)]
        by_cases h399 : 100 * c + 4 * q + yr = 399
        · rw [(by omega : (100 * c + 4 * q + yr + era * 400 + 1) / 400 = era + 1),
            (by omega : (100 * c + 4 * q + yr + era * 400 + 1) / 4 =
              25 * c + q + era * 100 + 1),
            (by omega : (100 * c + 4 * q + yr + era * 400 + 1) / 100 = c + era * 4 + 1)]
          omega
        · rw [(by omega : (100 * c + 4 * q + yr + era * 400 + 1) / 400 = era)]
          have hD : (100 * c + 4 * q + yr + era * 400 + 1) / 100 ≤ c + era * 4 + 1 := by
            omega
          have hE : c + era * 4 ≤ (100 * c + 4 * q + yr + era * 400 + 1) / 100 := by
            omega
          have hF : 25 * c + q + era * 100 ≤
              (100 * c + 4 * q + yr + era * 400 + 1) / 4 := by omega
          have hG : (100 * c + 4 * q + yr + era * 400 + 1) / 4 ≤
              25 * c + q + era * 100 + 1 := by omega
          omega

theorem yearStart_mono (a b : Int) (hab : a + 1 ≤ b) :
    yearStartDays a + 365 ≤ yearStartDays b := by
  simp only [yearStartDays]; omega

theorem yearStart_le (a b : Int) (hab : a ≤ b) : yearStartDays a ≤ yearStartDays b := by
  rcases eq_or_lt_of_le hab with h | h
  · rw [h]
  · have := yearStart_mono a b (by omega)
    omega

theorem monthOfs_window (i : Int) :
    153 * i - 2 ≤ 5 * monthOfsDays i ∧ 5 * monthOfsDays i ≤ 153 * i + 2 := by
  simp only [monthOfsDays]; omega

/-- Two valid (March-year, March-month, day-in-month) windows containing the
same day determine the same month start. -/
theorem monthWindow_unique (a i da b k db : Int)
    (hi0 : 0 ≤ i) (hi1 : i ≤ 11) (hk0 : 0 ≤ k) (hk1 : k ≤ 11)
    (hda : 1 ≤ da) (hdb : 1 ≤ db)
    (heq : yearStartDays a + monthOfsDays i + da = yearStartDays b + monthOfsDays k + db)
    (hv1 : yearStartDays a + monthOfsDays i + da - 1 <
      if i = 11 then yearStartDays (a + 1) else yearStartDays a + monthOfsDays (i + 1))
    (hv2 : yearStartDays b + monthOfsDays k + db - 1 <
      if k = 11 then yearStartDays (b + 1) else yearStartDays b + monthOfsDays (k + 1)) :
    yearStartDays a + monthOfsDays i = yearStartDays b + monthOfsDays k := by
  have si := monthOfs_window i
  have sk := monthOfs_window k
  have si1 := monthOfs_window (i + 1)
  have sk1 := monthOfs_window (k + 1)
  rcases lt_trichotomy a b with hab | hab | hab
  · exfalso
    have m1 := yearStart_mono a b (by omega)
    have m2 : yearStartDays (a + 1) ≤ yearStartDays b := yearStart_le _ _ (by omega)
    split_ifs at hv1 with hfeb
    · omega
    · omega
  · subst hab
    rcases lt_trichotomy i k with hik | hik | hik
    · exfalso
      have smono : monthOfsDays (i + 1) ≤ monthOfsDays k := by
        simp only [monthOfsDays]; omega
      split_ifs at hv1 with hfeb
      · omega
      · omega
    · rw [hik]
    · exfalso
      have smono : monthOfsDays (k + 1) ≤ monthOfsDays i := by
        simp only [monthOfsDays]; omega
      split_ifs at hv2 with hfeb
      · omega
      · omega
  · exfalso
    have m1 := yearStart_mono b a (by omega)
    have m2 : yearStartDays (b + 1) ≤ yearStartDays a := yearStart_le _ _ (by omega)
    split_ifs at hv2 with hfeb
    · omega
    · omega

/-- Two valid civil representations of the same day number have the same
month start. -/
theorem monthStart_unique (y m dd Y M D : Int)
    (hm1 : 1 ≤ m) (hm13 : m ≤ 13) (hdd : 1 ≤ dd)
    (hM1 : 1 ≤ M) (hM13 : M ≤ 13) (hD : 1 ≤ D)
    (heq : daysFromCivil y m dd = daysFromCivil Y M D)
    (hv1 : daysFromCivil y m dd < daysFromCivil y (m + 1) 1)
    (hv2 : daysFromCivil Y M D < daysFromCivil Y (M + 1) 1) :
    daysFromCivil y m 1 = daysFromCivil Y M 1 := by
  have e1 : yearStartDays (if m ≤ 2 then y - 1 else y) + monthOfsDays ((m + 9) % 12) + dd =
      yearStartDays (if M ≤ 2 then Y - 1 else Y) + monthOfsDays ((M + 9) % 12) + D := by
    simp only [daysFromCivil] at heq
    omega
  have e2 : yearStartDays (if m ≤ 2 then y - 1 else y) + monthOfsDays ((m + 9) % 12) +
      dd - 1 <
      if (m + 9) % 12 = 11 then yearStartDays ((if m ≤ 2 then y - 1 else y) + 1)
      else yearStartDays (if m ≤ 2 then y - 1 else y) + monthOfsDays ((m + 9) % 12 + 1) := by
    by_cases hm2 : m = 2
    · subst hm2
      rw [if_pos (by decide : ((2 : Int) + 9) % 12 = 11)]
      have hy : yearStartDays (y - 1 + 1) = yearStartDays y := by norm_num
      have h0 : monthOfsDays (((2 : Int) + 1 + 9) % 12) = 0 := by decide
      simp only [daysFromCivil] at hv1
      rw [h0] at hv1
      rw [if_pos (by norm_num : (2 : Int) ≤ 2)] at hv1 ⊢
      rw [if_neg (by norm_num : ¬((2 : Int) + 1 ≤ 2))] at hv1
      omega
    · rw [if_neg (show ¬((m + 9) % 12 = 11) by omega)]
      have hstep : (m + 1 + 9) % 12 = (m + 9) % 12 + 1 := by omega
      have hA : (if m + 1 ≤ 2 then y - 1 else y) = (if m ≤ 2 then y - 1 else y) := by
        split_ifs <;> omega
      simp only [daysFromCivil] at hv1
      rw [hstep, hA] at hv1
      omega
  have e3 : yearStartDays (if M ≤ 2 then Y - 1 else Y) + monthOfsDays ((M + 9) % 12) +
      D - 1 <
      if (M + 9) % 12 = 11 then yearStartDays ((if M ≤ 2 then Y - 1 else Y) + 1)
      else yearStartDays (if M ≤ 2 then Y - 1 else Y) + monthOfsDays ((M + 9) % 12 + 1) := by
    by_cases hM2 : M = 2
    · subst hM2
      rw [if_pos (by decide : ((2 : Int) + 9) % 12 = 11)]
      have hy : yearStartDays (Y - 1 + 1) = yearStartDays Y := by norm_num
      have h0 : monthOfsDays (((2 : Int) + 1 + 9) % 12) = 0 := by decide
      simp only [daysFromCivil] at hv2
      rw [h0] at hv2
      rw [if_pos (by norm_num : (2 : Int) ≤ 2)] at hv2 ⊢
      rw [if_neg (by norm_num : ¬((2 : Int) + 1 ≤ 2))] at hv2
      omega
    · rw [if_neg (show ¬((M + 9) % 12 = 11) by omega)]
      have hstep : (M + 1 + 9) % 12 = (M + 9) % 12 + 1 := by omega
      have hA : (if M + 1 ≤ 2 then Y - 1 else Y) = (if M ≤ 2 then Y - 1 else Y) := by
        split_ifs <;> omega
      simp only [daysFromCivil] at hv2
      rw [hstep, hA] at hv2
      omega
  have key := monthWindow_unique (if m ≤ 2 then y - 1 else y) ((m + 9) % 12) dd
    (if M ≤ 2 then Y - 1 else Y) ((M + 9) % 12) D
    (by omega) (by omega) (by omega) (by omega) hdd hD e1 e2 e3
  simp only [daysFromCivil]
  omega

/-- Every month spans between 28 and 31 days. -/
theorem monthLen_bounds (y k : Int) (hk1 : 1 ≤ k) (hk13 : k ≤ 13) :
    28 ≤ daysFromCivil y (k + 1) 1 - daysFromCivil y k 1 ∧
      daysFromCivil y (k + 1) 1 - daysFromCivil y k 1 ≤ 31 := by
  simp only [daysFromCivil, yearStartDays, monthOfsDays]
  split_ifs <;> omega

/-- January (month 13 of the March-based year) has exactly 31 days. -/
theorem monthLen_jan (y : Int) :
    daysFromCivil y 14 1 - daysFromCivil y 13 1 = 31 := by
  simp only [daysFromCivil, yearStartDays, monthOfsDays]
  split_ifs <;> omega

theorem daysFromCivil_day (y m d : Int) :
    daysFromCivil y m d = daysFromCivil y m 1 + d - 1 := by
  simp only [daysFromCivil]
  ring

/-- Fixed 31-day months: December (12) and January (13 in March-year form). -/
theorem monthLen_exact31 (y k : Int) (hk : k = 12 ∨ k = 13) :
    daysFromCivil y (k + 1) 1 - daysFromCivil y k 1 = 31 := by
  rcases hk with hk | hk <;>
    (simp only [daysFromCivil, yearStartDays, monthOfsDays]; split_ifs <;> omega)

/-- After stepping to day `d` of the next month and then taking day 0 of the
month that instant falls in (the JS `setMonth(m+1); setDate(0)` idiom), the
resulting day is at or after the original day `z`. -/
theorem endOfMonth_ge (z y m d Y2 M2 D2 : Int)
    (hC : civilFromDays z = ⟨y, m, d⟩)
    (hW : civilFromDays (daysFromCivil y (m + 1) 1 + (d - 1)) = ⟨Y2, M2, D2⟩) :
    z < daysFromCivil Y2 M2 1 := by
  obtain ⟨hz, hm1, hm12, hd1, hd31, hnext⟩ := civilFromDays_spec z y m d hC
  obtain ⟨hw, hM1, hM12, hD1, hD31, hwnext⟩ :=
    civilFromDays_spec (daysFromCivil y (m + 1) 1 + (d - 1)) Y2 M2 D2 hW
  by_cases hcase : daysFromCivil y (m + 1) 1 + (d - 1) < daysFromCivil y (m + 1 + 1) 1
  · -- day d exists in month m+1: the instant is (y, m+1, d)
    have hrep : daysFromCivil y (m + 1) d = daysFromCivil Y2 M2 D2 := by
      rw [daysFromCivil_day y (m + 1) d, hw]
      ring
    have hv1 : daysFromCivil y (m + 1) d < daysFromCivil y (m + 1 + 1) 1 := by
      rw [daysFromCivil_day y (m + 1) d]
      omega
    have hv2 : daysFromCivil Y2 M2 D2 < daysFromCivil Y2 (M2 + 1) 1 := by
      rw [hw]; exact hwnext
    have hkey := monthStart_unique y (m + 1) d Y2 M2 D2 (by omega) (by omega) hd1
      (by omega) (by omega) hD1 hrep hv1 hv2
    omega
  · -- day d overflows month m+1: the instant is in month m+2
    have hlen1 := monthLen_bounds y (m + 1) (by omega) (by omega)
    have hm10 : m ≤ 10 := by
      by_contra hcon
      have hx := monthLen_exact31 y (m + 1) (by omega)
      omega
    have hlen2 := monthLen_bounds y (m + 1 + 1) (by omega) (by omega)
    have hrep : daysFromCivil y (m + 1 + 1)
        (daysFromCivil y (m + 1) 1 + (d - 1) - daysFromCivil y (m + 1 + 1) 1 + 1) =
        daysFromCivil Y2 M2 D2 := by
      rw [daysFromCivil_day y (m + 1 + 1)
        (daysFromCivil y (m + 1) 1 + (d - 1) - daysFromCivil y (m + 1 + 1) 1 + 1), hw]
      ring
    have hv1 : daysFromCivil y (m + 1 + 1)
        (daysFromCivil y (m + 1) 1 + (d - 1) - daysFromCivil y (m + 1 + 1) 1 + 1) <
        daysFromCivil y (m + 1 + 1 + 1) 1 := by
      rw [daysFromCivil_day y (m + 1 + 1)
        (daysFromCivil y (m + 1) 1 + (d - 1) - daysFromCivil y (m + 1 + 1) 1 + 1)]
      have hlen3 := monthLen_bounds y (m + 1 + 1) (by omega) (by omega)
      omega
    have hv2 : daysFromCivil Y2 M2 D2 < daysFromCivil Y2 (M2 + 1) 1 := by
      rw [hw]; exact hwnext
    have hkey := monthStart_unique y (m + 1 + 1)
      (daysFromCivil y (m + 1) 1 + (d - 1) - daysFromCivil y (m + 1 + 1) 1 + 1) Y2 M2 D2
      (by omega) (by omega) (by omega) (by omega) (by omega) hD1 hrep hv1 hv2
    omega

theorem CivilDate_year_mk (y m d : Int) : (CivilDate.mk y m d).year = y := rfl

theorem CivilDate_month_mk (y m d : Int) : (CivilDate.mk y m d).month = m := rfl

theorem CivilDate_day_mk (y m d : Int) : (CivilDate.mk y m d).day = d := rfl

theorem msInDay_bounds (off t : Int) : 0 ≤ msInDay off t ∧ msInDay off t < dayMs := by
  simp only [msInDay, dayMs]
  constructor
  · exact Int.emod_nonneg _ (by norm_num)
  · exact Int.emod_lt_of_pos _ (by norm_num)

theorem localDay_decomp (off t : Int) : dayMs * localDay off t + msInDay off t = t + off := by
  simp only [msInDay, dayMs, localDay]
  exact Int.ediv_add_emod _ _

/-- The day number reached by `setDate(n)`: day `n` of the current month. -/
theorem localDay_jsSetDate (off t n : Int) :
    localDay off (jsSetDate off t n) =
      daysFromCivil (civilOf off t).year (civilOf off t).month 1 + (n - 1) := by
  have h1 := msInDay_bounds off t
  simp only [jsSetDate, localDay, msInDay, dayMs] at *
  omega

theorem localDay_jsSetMonthNext (off t : Int) :
    localDay off (jsSetMonthNext off t) =
      daysFromCivil (civilOf off t).year ((civilOf off t).month + 1) 1 +
        ((civilOf off t).day - 1) := by
  have h1 := msInDay_bounds off t
  simp only [jsSetMonthNext, localDay, msInDay, dayMs] at *
  omega

theorem msInDay_jsSetDate (off t n : Int) :
    msInDay off (jsSetDate off t n) = msInDay off t := by
  have h1 := msInDay_bounds off t
  simp only [jsSetDate, msInDay, dayMs] at *
  omega

/-- First day of the month of the civil date of `t`, in terms of the local
day and the day of month (the calendar roundtrip). -/
theorem fom_eq (off t y m d : Int) (hC : civilOf off t = ⟨y, m, d⟩) :
    daysFromCivil y m 1 = localDay off t - d + 1 ∧ 1 ≤ d ∧ d ≤ 31 ∧
      1 ≤ m ∧ m ≤ 12 ∧ localDay off t < daysFromCivil y (m + 1) 1 := by
  simp only [civilOf] at hC
  obtain ⟨hz, hm1, hm12, hd1, hd31, hnext⟩ := civilFromDays_spec (localDay off t) y m d hC
  rw [daysFromCivil_day y m d] at hz
  refine ⟨by omega, hd1, hd31, hm1, hm12, hnext⟩

theorem jsGetDay_bounds (off t : Int) : 0 ≤ jsGetDay off t ∧ jsGetDay off t < 7 := by
  simp only [jsGetDay]
  constructor
  · exact Int.emod_nonneg _ (by norm_num)
  · exact Int.emod_lt_of_pos _ (by norm_num)

/-- Closed form of `getStartOfWeek`: midnight of the Sunday on or before `t`. -/
theorem getStartOfWeek_eq (off t : Int) :
    getStartOfWeek off t = (localDay off t - jsGetDay off t) * dayMs - off := by
  rcases hC : civilOf off t with ⟨y, m, d⟩
  obtain ⟨hfom, hd1, hd31, hm1, hm12, hnext⟩ := fom_eq off t y m d hC
  simp only [getStartOfWeek, jsSetHours0, localDay_jsSetDate, jsGetDate, hC,
    CivilDate_year_mk, CivilDate_month_mk, CivilDate_day_mk, hfom]
  ring_nf

/-- Closed form of `getEndOfWeek`: last millisecond of the Saturday on or
after `t`. -/
theorem getEndOfWeek_eq (off t : Int) :
    getEndOfWeek off t =
      (localDay off t + (6 - jsGetDay off t)) * dayMs + (dayMs - 1) - off := by
  rcases hC : civilOf off t with ⟨y, m, d⟩
  obtain ⟨hfom, hd1, hd31, hm1, hm12, hnext⟩ := fom_eq off t y m d hC
  simp only [getEndOfWeek, jsSetHours23, localDay_jsSetDate, jsGetDate, hC,
    CivilDate_year_mk, CivilDate_month_mk, CivilDate_day_mk, hfom]
  ring_nf

/-- Closed form of `getStartOfMonth`: midnight of the first of the month. -/
theorem getStartOfMonth_eq (off t : Int) :
    getStartOfMonth off t = (localDay off t - jsGetDate off t + 1) * dayMs - off := by
  rcases hC : civilOf off t with ⟨y, m, d⟩
  obtain ⟨hfom, hd1, hd31, hm1, hm12, hnext⟩ := fom_eq off t y m d hC
  simp only [getStartOfMonth, jsSetHours0, localDay_jsSetDate, jsGetDate, hC,
    CivilDate_year_mk, CivilDate_month_mk, CivilDate_day_mk, hfom]
  ring_nf

theorem getStartOfDay_eq (off t : Int) :
    getStartOfDay off t = localDay off t * dayMs - off := rfl

theorem getEndOfDay_eq (off t : Int) :
    getEndOfDay off t = localDay off t * dayMs + (dayMs - 1) - off := rfl

/-- The end of the day containing `t` never exceeds `getEndOfMonth` of `t`
(even on days where the JS `setMonth(m+1); setDate(0)` idiom overshoots the
real month end). -/
theorem getEndOfDay_le_getEndOfMonth (off t : Int) :
    getEndOfDay off t ≤ getEndOfMonth off t := by
  rcases hC : civilOf off t with ⟨y, m, d⟩
  have hC2 : civilFromDays (localDay off t) = ⟨y, m, d⟩ := by
    simpa only [civilOf] using hC
  have hwday : localDay off (jsSetMonthNext off t) = daysFromCivil y (m + 1) 1 + (d - 1) := by
    rw [localDay_jsSetMonthNext, hC, CivilDate_year_mk, CivilDate_month_mk, CivilDate_day_mk]
  rcases hW : civilOf off (jsSetMonthNext off t) with ⟨Y2, M2, D2⟩
  have hW2 : civilFromDays (daysFromCivil y (m + 1) 1 + (d - 1)) = ⟨Y2, M2, D2⟩ := by
    have := hW
    simp only [civilOf, hwday] at this
    exact this
  have hge := endOfMonth_ge (localDay off t) y m d Y2 M2 D2 hC2 hW2
  have hend : getEndOfMonth off t = (daysFromCivil Y2 M2 1 - 1) * dayMs + (dayMs - 1) - off := by
    simp only [getEndOfMonth, jsSetHours23, localDay_jsSetDate, hW,
      CivilDate_year_mk, CivilDate_month_mk, CivilDate_day_mk]
    ring_nf
  rw [getEndOfDay_eq, hend]
  have hbound : localDay off t ≤ daysFromCivil Y2 M2 1 - 1 := by omega
  simp only [dayMs]
  nlinarith [hbound]

theorem saveRec_updatedAt (g : BudgetGoal) (t : Int) :
    (saveBudgetGoalRecord g t).updatedAt = some t := rfl

theorem saveRec_createdAt (g : BudgetGoal) (t : Int) :
    (saveBudgetGoalRecord g t).createdAt =
      if jsTruthyTimestamp g.createdAt then g.createdAt else some t := by
  simp only [saveBudgetGoalRecord]
  split_ifs <;> rfl

theorem mem_putByKey (store : List BudgetGoal) (g : BudgetGoal) : g ∈ putByKey store g := by
  simp only [putByKey]
  split_ifs with h
  · rw [List.any_eq_true] at h
    obtain ⟨x, hx, hid⟩ := h
    rw [List.mem_map]
    exact ⟨x, hx, by simp [hid]⟩
  · simp

theorem runAdds_complete (es : List Expense) : ∀ acc : List Expense,
    ((acc ++ es).map fun e => e.id).Nodup → runAdds acc es = some (acc ++ es) := by
  induction es with
  | nil => intro acc _; simp [runAdds]
  | cons e rest ih =>
    intro acc hnd
    have hmap : ((acc ++ e :: rest).map fun e => e.id) =
        (acc.map fun e => e.id) ++ (e.id :: (rest.map fun e => e.id)) := by
      simp
    rw [hmap] at hnd
    have hdisj := List.disjoint_of_nodup_append hnd
    have hno : (acc.any fun x => x.id == e.id) = false := by
      rw [List.any_eq_false]
      intro x hx hbeq
      rw [beq_iff_eq] at hbeq
      have hmem : x.id ∈ acc.map fun e => e.id := List.mem_map_of_mem _ hx
      have : x.id ∈ e.id :: (rest.map fun e => e.id) := by
        rw [hbeq]; exact List.mem_cons_self _ _
      exact hdisj hmem this
    have hstep : runAdds acc (e :: rest) = runAdds (acc ++ [e]) rest := by
      simp [runAdds, addToStore, hno]
    rw [hstep]
    have := ih (acc ++ [e]) (by rw [List.append_assoc]; simpa using hnd)
    rw [this, List.append_assoc]
    rfl

/-- C1: for every goal with a non-negative ceiling and every current spend,
the derived percentage is current / amount * 100, or 0 when the amount is 0
(negative ceilings are excluded by the data model's amount > 0 invariant);
the classification is "over" at percentage >= 100, "near" at >= 80, else
"under", so 79.9 is "under", 80.0 and 99.9 are "near", and 100.0 is "over". -/
theorem C1_budget_status (cur amt : ℚ) (hnn : 0 ≤ amt) :
    budgetPercentage cur amt = (if amt = 0 then 0 else cur / amt * 100) ∧
    (∀ p : ℚ, 100 ≤ p → getBudgetStatus p = "over") ∧
    (∀ p : ℚ, 80 ≤ p → p < 100 → getBudgetStatus p = "near") ∧
    (∀ p : ℚ, p < 80 → getBudgetStatus p = "under") ∧
    getBudgetStatus (799 / 10) = "under" ∧ getBudgetStatus 80 = "near" ∧
    getBudgetStatus (999 / 10) = "near" ∧ getBudgetStatus 100 = "over" := by
  refine ⟨?_, ?_, ?_, ?_, ?_, ?_, ?_, ?_⟩
  · by_cases hz : amt = 0
    · simp [budgetPercentage, hz]
    · have hpos : amt > 0 := lt_of_le_of_ne hnn (Ne.symm hz)
      simp [budgetPercentage, hpos, hz]
  · intro p hp
    simp [getBudgetStatus, hp]
  · intro p hp1 hp2
    rw [getBudgetStatus, if_neg (by linarith), if_pos hp1]
  · intro p hp
    rw [getBudgetStatus, if_neg (by linarith), if_neg (by linarith)]
  · norm_num [getBudgetStatus]
  · norm_num [getBudgetStatus]
  · norm_num [getBudgetStatus]
  · norm_num [getBudgetStatus]

/-- Witness for C1 at the spec's scenario: goal amount 100, current spend 85
gives percentage 85 and status "near". -/
theorem C1_budget_status_witness :
    budgetPercentage 85 100 = 85 ∧ getBudgetStatus (budgetPercentage 85 100) = "near" := by
  have h := C1_budget_status 85 100 (by norm_num)
  have hp : budgetPercentage 85 100 = 85 := by rw [h.1]; norm_num
  exact ⟨hp, by rw [hp]; exact h.2.2.1 85 (by norm_num) (by norm_num)⟩

/-- C2: percentageChange is 0 when both values are 0, 100 when only the old
value is 0, and otherwise the signed relative change over the absolute old
value; it is a total function on the rationals (no NaN or error case), and
matches the spec's four sample values. -/
theorem C2_percentage_change (a b : ℚ) :
    (a = 0 → b = 0 → calculatePercentageChange a b = 0) ∧
    (a = 0 → b ≠ 0 → calculatePercentageChange a b = 100) ∧
    (a ≠ 0 → calculatePercentageChange a b = (b - a) / |a| * 100) ∧
    calculatePercentageChange 0 0 = 0 ∧ calculatePercentageChange 0 50 = 100 ∧
    calculatePercentageChange 100 150 = 50 ∧ calculatePercentageChange 100 50 = -50 := by
  refine ⟨?_, ?_, ?_, ?_, ?_, ?_, ?_⟩
  · intro h1 h2; simp [calculatePercentageChange, h1, h2]
  · intro h1 h2; simp [calculatePercentageChange, h1, h2]
  · intro h1; simp [calculatePercentageChange, h1]
  · norm_num [calculatePercentageChange]
  · norm_num [calculatePercentageChange]
  · norm_num [calculatePercentageChange, abs_of_pos]
  · norm_num [calculatePercentageChange, abs_of_pos]

/-- Witness for C2 at (100, 150): the general formula applies and evaluates
to 50. -/
theorem C2_percentage_change_witness :
    calculatePercentageChange 100 150 = (150 - 100) / |(100 : ℚ)| * 100 ∧
      calculatePercentageChange 100 150 = 50 :=
  ⟨(C2_percentage_change 100 150).2.2.1 (by norm_num),
    by norm_num [calculatePercentageChange, abs_of_pos]⟩

/-- C3 counterexample: a failure of the read request inside the transaction
is not converted to the safe default; the promise the caller got is
rejected, for both getExpenses and getSetting. -/
theorem C3_counterexample :
    getExpensesOp [] (some ReadFailure.request) = Except.error ReadFailure.request ∧
      getSettingOp ([] : List (String × Int)) "currency" 0 (some ReadFailure.request) =
        Except.error ReadFailure.request :=
  ⟨rfl, rfl⟩

/-- C3 amended: read operations catch a connection failure (the awaited
openDB rejection) and resolve with the safe default — the empty list for
getExpenses, the caller-supplied default for getSetting — and resolve
normally on success; but a failure of the read request inside the
transaction rejects and propagates to the caller. -/
theorem C3_read_failure_policy {α : Type} (db : List Expense)
    (settings : List (String × α)) (name : String) (dflt : α) :
    getExpensesOp db none = Except.ok db ∧
    getExpensesOp db (some ReadFailure.connection) = Except.ok [] ∧
    getExpensesOp db (some ReadFailure.request) = Except.error ReadFailure.request ∧
    getSettingOp settings name dflt none =
      Except.ok (((settings.find? fun p => p.1 == name).map fun p => p.2).getD dflt) ∧
    getSettingOp settings name dflt (some ReadFailure.connection) = Except.ok dflt ∧
    getSettingOp settings name dflt (some ReadFailure.request) =
      Except.error ReadFailure.request :=
  ⟨rfl, rfl, rfl, rfl, rfl, rfl⟩

/-- C4: on the success path, getExpensesByPeriod returns exactly the stored
expenses whose timestamp lies in the closed interval [startTime, endTime] —
inclusive at both ends. -/
theorem C4_get_by_period (db : List Expense) (s e : Int) (hse : s ≤ e) :
    ∀ x : Expense, x ∈ getExpensesByPeriod db s e ↔
      x ∈ db ∧ s ≤ x.timestamp ∧ x.timestamp ≤ e := by
  intro x
  simp [getExpensesByPeriod, List.mem_filter]

/-- Witness for C4: expenses at exactly the start and exactly the end bound
are returned, and one outside is not. -/
theorem C4_get_by_period_witness :
    ((⟨"a", 5, 100, "food", none⟩ : Expense) ∈
      getExpensesByPeriod [⟨"a", 5, 100, "food", none⟩, ⟨"b", 3, 200, "food", none⟩,
        ⟨"c", 2, 300, "food", none⟩] 100 200) ∧
    ((⟨"b", 3, 200, "food", none⟩ : Expense) ∈
      getExpensesByPeriod [⟨"a", 5, 100, "food", none⟩, ⟨"b", 3, 200, "food", none⟩,
        ⟨"c", 2, 300, "food", none⟩] 100 200) ∧
    ¬ ((⟨"c", 2, 300, "food", none⟩ : Expense) ∈
      getExpensesByPeriod [⟨"a", 5, 100, "food", none⟩, ⟨"b", 3, 200, "food", none⟩,
        ⟨"c", 2, 300, "food", none⟩] 100 200) := by
  refine ⟨?_, ?_, ?_⟩
  · exact (C4_get_by_period _ 100 200 (by norm_num) _).mpr ⟨by decide, by decide, by decide⟩
  · exact (C4_get_by_period _ 100 200 (by norm_num) _).mpr ⟨by decide, by decide, by decide⟩
  · intro hmem
    have h := (C4_get_by_period _ 100 200 (by norm_num) _).mp hmem
    exact absurd h.2.2 (by decide)

/-- C5: the repository sets the goal's timestamps on write — createdAt only
when the incoming record has none (a truthy, i.e. nonzero, present createdAt
is preserved; the falsy 0 edge case is covered separately), and updatedAt on
every save; saving twice with the same id, the first save at a positive
clock instant and the second strictly later, preserves the first save's
createdAt and moves updatedAt to the later instant. -/
theorem C5_save_goal_timestamps :
    (∀ (g : BudgetGoal) (t : Int), (saveBudgetGoalRecord g t).updatedAt = some t) ∧
    (∀ (g : BudgetGoal) (t : Int), g.createdAt = none →
      (saveBudgetGoalRecord g t).createdAt = some t) ∧
    (∀ (g : BudgetGoal) (t c : Int), g.createdAt = some c → c ≠ 0 →
      (saveBudgetGoalRecord g t).createdAt = some c) ∧
    (∀ (g : BudgetGoal) (t1 t2 : Int), 0 < t1 → t1 < t2 →
      (saveBudgetGoalRecord (saveBudgetGoalRecord g t1) t2).createdAt =
        (saveBudgetGoalRecord g t1).createdAt ∧
      (saveBudgetGoalRecord g t1).updatedAt = some t1 ∧
      (saveBudgetGoalRecord (saveBudgetGoalRecord g t1) t2).updatedAt = some t2) := by
  refine ⟨fun g t => saveRec_updatedAt g t, ?_, ?_, ?_⟩
  · intro g t h
    rw [saveRec_createdAt, if_neg (by simp [jsTruthyTimestamp, h])]
  · intro g t c h hc
    rw [saveRec_createdAt, if_pos (by simp [jsTruthyTimestamp, h, hc]), h]
  · intro g t1 t2 h1 h2
    refine ⟨?_, saveRec_updatedAt g t1, saveRec_updatedAt _ t2⟩
    rw [saveRec_createdAt (saveBudgetGoalRecord g t1) t2]
    rw [if_pos ?_]
    rw [saveRec_createdAt g t1]
    split_ifs with ht
    · cases hcr : g.createdAt with
      | none => rw [hcr] at ht; simp [jsTruthyTimestamp] at ht
      | some c =>
        rw [hcr] at ht
        simp only [jsTruthyTimestamp] at ht ⊢
        exact ht
    · simp only [jsTruthyTimestamp]
      simp
      omega

/-- Witness for C5: a goal first saved at instant 1 and saved again at
instant 2 keeps createdAt = 1 and ends with updatedAt = 2. -/
theorem C5_save_goal_timestamps_witness :
    (saveBudgetGoalRecord (saveBudgetGoalRecord
        ⟨"g1", "food", 100, BudgetPeriod.monthly, none, none⟩ 1) 2).createdAt =
      (saveBudgetGoalRecord
        ⟨"g1", "food", 100, BudgetPeriod.monthly, none, none⟩ 1).createdAt ∧
    (saveBudgetGoalRecord (saveBudgetGoalRecord
        ⟨"g1", "food", 100, BudgetPeriod.monthly, none, none⟩ 1) 2).createdAt = some 1 ∧
    (saveBudgetGoalRecord (saveBudgetGoalRecord
        ⟨"g1", "food", 100, BudgetPeriod.monthly, none, none⟩ 1) 2).updatedAt = some 2 := by
  have h := (C5_save_goal_timestamps).2.2.2
    ⟨"g1", "food", 100, BudgetPeriod.monthly, none, none⟩ 1 2 (by norm_num) (by norm_num)
  exact ⟨h.1, by decide, h.2.2⟩

/-- C9: saveBudgetGoal writes the timestamps onto the caller's own goal
object and puts that same object, so after the call the caller's record and
the stored record coincide and carry the repository-assigned timestamps; a
goal arriving with createdAt = 0 is treated as having none and gets a fresh
createdAt. -/
theorem C9_save_mutates_argument (store : List BudgetGoal) (g : BudgetGoal) (t : Int) :
    (saveBudgetGoalRun store g t).callerGoal = saveBudgetGoalRecord g t ∧
    (saveBudgetGoalRun store g t).callerGoal ∈ (saveBudgetGoalRun store g t).store ∧
    (saveBudgetGoalRun store g t).callerGoal.updatedAt = some t ∧
    (g.createdAt = some 0 → (saveBudgetGoalRun store g t).callerGoal.createdAt = some t) := by
  refine ⟨rfl, mem_putByKey store _, saveRec_updatedAt g t, ?_⟩
  intro h0
  show (saveBudgetGoalRecord g t).createdAt = some t
  rw [saveRec_createdAt, if_neg (by simp [jsTruthyTimestamp, h0])]

/-- Witness for C9: a goal saved with createdAt = 0 comes back to the caller
with createdAt = 7 = now, and the caller's record is in the store. -/
theorem C9_save_mutates_argument_witness :
    (saveBudgetGoalRun [] ⟨"g1", "food", 100, BudgetPeriod.daily, some 0, none⟩ 7).callerGoal.createdAt
      = some 7 ∧
    (saveBudgetGoalRun [] ⟨"g1", "food", 100, BudgetPeriod.daily, some 0, none⟩ 7).callerGoal
      ∈ (saveBudgetGoalRun [] ⟨"g1", "food", 100, BudgetPeriod.daily, some 0, none⟩ 7).store := by
  have h := C9_save_mutates_argument [] ⟨"g1", "food", 100, BudgetPeriod.daily, some 0, none⟩ 7
  exact ⟨h.2.2.2 rfl, h.2.1⟩

/-- C6: with pairwise-distinct ids, the replace-all bulk save clears the
store and re-inserts every given record in one transaction, so the
transaction commits and a subsequent getAll returns exactly the given
records; in particular replacing with the empty list leaves an empty store. -/
theorem C6_replace_all (store es : List Expense) (h : (es.map fun e => e.id).Nodup) :
    saveExpenses store es = (es, true) ∧
    getExpensesOp (saveExpenses store es).1 none = Except.ok es ∧
    saveExpenses store [] = ([], true) ∧
    getExpensesOp (saveExpenses store []).1 none = Except.ok [] := by
  have hrun : runAdds [] es = some es := by
    have := runAdds_complete es [] (by simpa using h)
    simpa using this
  have hmain : saveExpenses store es = (es, true) := by
    simp [saveExpenses, hrun]
  refine ⟨hmain, by rw [hmain]; rfl, by simp [saveExpenses, runAdds], ?_⟩
  simp [saveExpenses, runAdds]
  rfl

/-- Witness for C6 at two concrete distinct-id expenses. -/
theorem C6_replace_all_witness :
    saveExpenses [⟨"old", 9, 1, "misc", none⟩]
      [⟨"a", 5, 100, "food", none⟩, ⟨"b", 3, 200, "transport", none⟩] =
      ([⟨"a", 5, 100, "food", none⟩, ⟨"b", 3, 200, "transport", none⟩], true) ∧
    saveExpenses [⟨"old", 9, 1, "misc", none⟩] [] = ([], true) := by
  have h := C6_replace_all [⟨"old", 9, 1, "misc", none⟩]
    [⟨"a", 5, 100, "food", none⟩, ⟨"b", 3, 200, "transport", none⟩] (by decide)
  exact ⟨h.1, h.2.2.1⟩

theorem sumAmounts_filter_mono (p q : Expense → Bool) (es : List Expense)
    (himp : ∀ x : Expense, p x = true → q x = true)
    (hnn : ∀ x ∈ es, 0 ≤ x.amount) :
    sumAmounts (es.filter p) ≤ sumAmounts (es.filter q) := by
  induction es with
  | nil => simp [sumAmounts]
  | cons e rest ih =>
    have hnr : ∀ x ∈ rest, 0 ≤ x.amount := fun x hx => hnn x (List.mem_cons_of_mem _ hx)
    have hne : 0 ≤ e.amount := hnn e (List.mem_cons_self _ _)
    have ihr := ih hnr
    by_cases hp : p e
    · have hq : q e = true := himp e hp
      simp only [List.filter_cons, hp, hq, if_pos]
      simp only [sumAmounts, List.map_cons, List.sum_cons] at *
      linarith
    · by_cases hq : q e
      · simp only [List.filter_cons, hp, hq, Bool.false_eq_true, if_false, if_true]
        simp only [sumAmounts, List.map_cons, List.sum_cons] at ihr ⊢
        linarith
      · simp only [List.filter_cons, hp, hq]
        simpa using ihr

/-- C8: for every reference instant (in every fixed-offset zone), the weekly
window starts at the local midnight of the Sunday of the week containing the
instant (day index 0; weeks always start on Sunday) and ends exactly 7 days
minus one millisecond later, on the following Saturday at 23:59:59.999 local
time; month and year boundaries need no special case since the statement is
unconditional in the instant. -/
theorem C8_weekly_window (off t : Int) :
    (getStartOfWeek off t + off) % dayMs = 0 ∧
    jsGetDay off (getStartOfWeek off t) = 0 ∧
    getStartOfWeek off t ≤ t ∧
    t < getStartOfWeek off t + 7 * dayMs ∧
    getEndOfWeek off t = getStartOfWeek off t + 7 * dayMs - 1 ∧
    jsGetDay off (getEndOfWeek off t) = 6 ∧
    (getEndOfWeek off t + off) % dayMs = dayMs - 1 := by
  have h1 := jsGetDay_bounds off t
  have h2 := msInDay_bounds off t
  have h3 := localDay_decomp off t
  rw [getStartOfWeek_eq, getEndOfWeek_eq]
  simp only [jsGetDay, localDay, msInDay, dayMs] at *
  omega

/-- C10: the daily window is contained in the weekly window and in the
monthly window of the same reference instant, so on any expense list with
non-negative amounts the daily total is at most the weekly total and at
most the monthly total. -/
theorem C10_daily_within_weekly_monthly (off t : Int) :
    getStartOfWeek off t ≤ getStartOfDay off t ∧
    getEndOfDay off t ≤ getEndOfWeek off t ∧
    getStartOfMonth off t ≤ getStartOfDay off t ∧
    getEndOfDay off t ≤ getEndOfMonth off t ∧
    (∀ es : List Expense, (∀ x ∈ es, 0 ≤ x.amount) →
      (calculateTotals es off t).daily ≤ (calculateTotals es off t).weekly ∧
      (calculateTotals es off t).daily ≤ (calculateTotals es off t).monthly) := by
  have h1 := jsGetDay_bounds off t
  have hw1 : getStartOfWeek off t ≤ getStartOfDay off t := by
    rw [getStartOfWeek_eq, getStartOfDay_eq]
    simp only [dayMs] at *
    nlinarith [h1.1]
  have hw2 : getEndOfDay off t ≤ getEndOfWeek off t := by
    rw [getEndOfWeek_eq, getEndOfDay_eq]
    simp only [dayMs] at *
    nlinarith [h1.2]
  have hm1 : getStartOfMonth off t ≤ getStartOfDay off t := by
    rcases hC : civilOf off t with ⟨y, m, d⟩
    obtain ⟨hfom, hd1, hd31, hmm1, hmm12, hnext⟩ := fom_eq off t y m d hC
    rw [getStartOfMonth_eq, getStartOfDay_eq]
    have hdate : jsGetDate off t = d := by rw [jsGetDate, hC, CivilDate_day_mk]
    rw [hdate]
    simp only [dayMs]
    nlinarith [hd1]
  have hm2 : getEndOfDay off t ≤ getEndOfMonth off t := getEndOfDay_le_getEndOfMonth off t
  refine ⟨hw1, hw2, hm1, hm2, ?_⟩
  intro es hnn
  constructor
  · refine sumAmounts_filter_mono _ _ es ?_ hnn
    intro x hx
    simp only [Bool.and_eq_true, decide_eq_true_eq] at hx ⊢
    omega
  · refine sumAmounts_filter_mono _ _ es ?_ hnn
    intro x hx
    simp only [Bool.and_eq_true, decide_eq_true_eq] at hx ⊢
    omega

/-- Witness for C10 at a concrete instant and expense list: offset 0,
instant 0 (1970-01-01 00:00 UTC), one expense of amount 5 at that instant. -/
theorem C10_daily_within_weekly_monthly_witness :
    (0 : ℚ) ≤ (5 : ℚ) ∧
    (calculateTotals [⟨"a", 5, 0, "food", none⟩] 0 0).daily ≤
      (calculateTotals [⟨"a", 5, 0, "food", none⟩] 0 0).weekly ∧
    (calculateTotals [⟨"a", 5, 0, "food", none⟩] 0 0).daily ≤
      (calculateTotals [⟨"a", 5, 0, "food", none⟩] 0 0).monthly := by
  have h := (C10_daily_within_weekly_monthly 0 0).2.2.2.2
    [⟨"a", 5, 0, "food", none⟩] (by intro x hx; fin_cases hx; norm_num)
  exact ⟨by norm_num, h.1, h.2⟩

theorem DayBucket_eta (b : DayBucket) : (⟨b.date, b.amount⟩ : DayBucket) = b := rfl

theorem DayBucket_date_mk (u : Int) (a : ℚ) : (⟨u, a⟩ : DayBucket).date = u := rfl

theorem DayBucket_amount_mk (u : Int) (a : ℚ) : (⟨u, a⟩ : DayBucket).amount = a := rfl

/-- The chart's expense pass acts on each seeded bucket independently:
every bucket ends at its initial amount plus the sum of the amounts of the
expenses whose day key equals the bucket's date. -/
theorem groupDay_fold (es : List Expense) : ∀ bs : List DayBucket,
    es.foldl addExpenseToBuckets bs = bs.map fun b =>
      ⟨b.date, b.amount +
        ((es.filter fun x => decide (b.date = chartDayKey x.timestamp)).map
          fun x => x.amount).sum⟩ := by
  induction es with
  | nil =>
    intro bs
    simp only [List.foldl_nil, List.filter_nil, List.map_nil, List.sum_nil, add_zero,
      DayBucket_eta]
    rw [List.map_id']
  | cons e rest ih =>
    intro bs
    rw [List.foldl_cons, ih, addExpenseToBuckets, List.map_map]
    refine List.map_congr_left ?_
    intro b _
    simp only [Function.comp_apply]
    by_cases hb : b.date = chartDayKey e.timestamp
    · simp [hb, List.filter_cons, DayBucket.mk.injEq, add_assoc]
    · simp [hb, List.filter_cons]

theorem dayKeys_mem (s e u : Int) (hse : s ≤ e) (hmid : s % dayMs = 0) :
    u ∈ dayKeys s e ↔ s / dayMs ≤ u ∧ u ≤ e / dayMs := by
  have hN : ((((e - s) / dayMs + 1).toNat : Int)) = (e - s) / dayMs + 1 := by
    refine Int.toNat_of_nonneg ?_
    have : 0 ≤ (e - s) / dayMs := Int.ediv_nonneg (by omega) (by norm_num [dayMs])
    omega
  simp only [dayKeys, List.mem_map, List.mem_range]
  constructor
  · rintro ⟨k, hk, rfl⟩
    have hk2 : (k : Int) < ((e - s) / dayMs + 1) := by
      rw [← hN]
      exact_mod_cast hk
    simp only [dayMs] at *
    omega
  · rintro ⟨h1, h2⟩
    have hnn : 0 ≤ u - s / dayMs := by omega
    have h3 : ((u - s / dayMs).toNat : Int) = u - s / dayMs := Int.toNat_of_nonneg hnn
    refine ⟨(u - s / dayMs).toNat, ?_, ?_⟩
    · have : ((u - s / dayMs).toNat : Int) < (((e - s) / dayMs + 1).toNat : Int) := by
        rw [h3, hN]
        simp only [dayMs] at *
        omega
      exact_mod_cast this
    · rw [h3]
      omega

theorem dayKeys_pairwise (s e : Int) : List.Pairwise (· < ·) (dayKeys s e) := by
  have h := List.pairwise_lt_range ((e - s) / dayMs + 1).toNat
  simp only [dayKeys]
  refine h.map (fun k : ℕ => s / dayMs + (k : Int)) ?_
  intro a b hab
  show s / dayMs + (a : Int) < s / dayMs + (b : Int)
  omega

/-- C7 counterexample: for a window whose start is not a midnight, the
buckets do not cover every calendar day meeting [start, end]. With start
23:00 of day 0 and end 01:00 of day 1, the loop runs once, producing only a
day-0 bucket, although day 1 also intersects the window. -/
theorem C7_counterexample :
    ((groupExpensesByDay [] 82800000 90000000).map fun b => b.date) = [0] ∧
    (82800000 : Int) ≤ 90000000 ∧
    (90000000 : Int) / dayMs = 1 ∧
    ¬ ((1 : Int) ∈ (groupExpensesByDay [] 82800000 90000000).map fun b => b.date) := by
  refine ⟨by decide, by norm_num, by decide, by decide⟩

/-- C7 (amended): for every expense list and every window with start ≤ end
whose start instant is a midnight (as at every call site, where the window
is a whole month), groupExpensesByDay produces exactly one bucket per
calendar day of [start, end], in ascending day order, each bucket holding
the sum of the amounts of that day's expenses — zero for days with none;
a 3-day window with one expense on day 1 yields 3 buckets with days 2 and 3
at amount 0. -/
theorem C7_group_by_day (es : List Expense) (s e : Int) (hse : s ≤ e)
    (hmid : s % dayMs = 0) :
    ((groupExpensesByDay es s e).map fun b => b.date) = dayKeys s e ∧
    (∀ u : Int, (u ∈ (groupExpensesByDay es s e).map fun b => b.date) ↔
      s / dayMs ≤ u ∧ u ≤ e / dayMs) ∧
    List.Pairwise (· < ·) ((groupExpensesByDay es s e).map fun b => b.date) ∧
    (∀ b ∈ groupExpensesByDay es s e,
      b.amount = ((es.filter fun x => decide (b.date = chartDayKey x.timestamp)).map
        fun x => x.amount).sum) ∧
    (∀ b ∈ groupExpensesByDay es s e,
      (∀ x ∈ es, chartDayKey x.timestamp ≠ b.date) → b.amount = 0) ∧
    groupExpensesByDay [⟨"x", 5, 1000, "food", none⟩] 0 (3 * dayMs - 1) =
      [⟨0, 5⟩, ⟨1, 0⟩, ⟨2, 0⟩] := by
  have hrepr : groupExpensesByDay es s e = (dayKeys s e).map fun u =>
      ⟨u, ((es.filter fun x => decide (u = chartDayKey x.timestamp)).map
        fun x => x.amount).sum⟩ := by
    rw [groupExpensesByDay, groupDay_fold, List.map_map]
    refine List.map_congr_left ?_
    intro u _
    simp only [Function.comp_apply, DayBucket_date_mk, DayBucket_amount_mk, zero_add]
  have hdates : ((groupExpensesByDay es s e).map fun b => b.date) = dayKeys s e := by
    rw [hrepr, List.map_map]
    have : ((fun b : DayBucket => b.date) ∘ fun u : Int =>
        (⟨u, ((es.filter fun x => decide (u = chartDayKey x.timestamp)).map
          fun x => x.amount).sum⟩ : DayBucket)) = fun u : Int => u := by
      funext u
      rfl
    rw [this, List.map_id']
  refine ⟨hdates, ?_, ?_, ?_, ?_, ?_⟩
  · intro u
    rw [hdates]
    exact dayKeys_mem s e u hse hmid
  · rw [hdates]
    exact dayKeys_pairwise s e
  · intro b hb
    rw [hrepr] at hb
    rw [List.mem_map] at hb
    obtain ⟨u, hu, rfl⟩ := hb
    rfl
  · intro b hb hnone
    rw [hrepr] at hb
    rw [List.mem_map] at hb
    obtain ⟨u, hu, rfl⟩ := hb
    show ((es.filter fun x => decide (u = chartDayKey x.timestamp)).map
      fun x => x.amount).sum = 0
    have hfil : (es.filter fun x => decide (u = chartDayKey x.timestamp)) = [] := by
      rw [List.filter_eq_nil_iff]
      intro x hx
      simp only [decide_eq_true_eq]
      intro hcon
      exact hnone x hx hcon.symm
    rw [hfil]
    simp
  · have h1 : dayKeys 0 (3 * dayMs - 1) = [0, 1, 2] := by decide
    rw [groupExpensesByDay, groupDay_fold, h1]
    norm_num [chartDayKey, dayMs, List.filter, DayBucket.mk.injEq]

theorem C7_group_by_day_witness :
    ((groupExpensesByDay [⟨"x", 5, 1000, "food", none⟩] 0 (3 * dayMs - 1)).map
      fun b => b.date) = dayKeys 0 (3 * dayMs - 1) ∧
    groupExpensesByDay [⟨"x", 5, 1000, "food", none⟩] 0 (3 * dayMs - 1) =
      [⟨0, 5⟩, ⟨1, 0⟩, ⟨2, 0⟩] := by
  have h := C7_group_by_day [⟨"x", 5, 1000, "food", none⟩] 0 (3 * dayMs - 1)
    (by norm_num [dayMs]) (by norm_num)
  exact ⟨h.1, h.2.2.2.2.2⟩
